import Mathlib

/-!
Verification of the chunking engine of `kb-sync-agent` (`src/uploader.py`,
class `ArticleUploader`).

The engine is embedded shallowly:

* `_count_tokens` delegates to the external `tiktoken` library (an opaque,
  deterministic encoder).  It is modelled as an explicit parameter
  `tc : String → Nat`, matching the spec's pluggable `TokenCounter`
  contract (§4.4), which explicitly allows deterministic word-count-based
  stand-ins for testing.  Concrete counters used for witnesses and
  counterexamples below scale a whitespace word count by a fixed ratio.
* The module-level constants `TARGET_TOKENS`, `OVERLAP_TOKENS`,
  `MIN_CHUNK_TOKENS`, `MAX_CHUNK_TOKENS` of `uploader.py` are kept, and the
  chunker is additionally parameterised by a `ChunkCfg` record holding the
  four thresholds so that configuration-dependent claims can be stated;
  `createChunks` is exactly the configured chunker applied to the record
  built from the source's constants.
* Python string/regex operations (`str.split`, `str.strip`, `re.split`,
  `re.match`) are re-implemented executably on `List Char`.  Python float
  division inside `int(OVERLAP_TOKENS * len(words) / tokens)` is modelled
  as exact rational division rounded down, i.e. `Nat` division.
  Python's `\s` and `str.strip`/`str.split()` whitespace classes are
  modelled by `Char.isWhitespace` (space, tab, CR, LF); all concrete
  inputs below stay inside this common subset.
-/

/-! ## Chunking parameters (uploader.py lines 15-19) -/

def TARGET_TOKENS : Nat := 600

def OVERLAP_TOKENS : Nat := 100

def MIN_CHUNK_TOKENS : Nat := 200

def MAX_CHUNK_TOKENS : Nat := 800

/-- Generalised configuration record for the four module constants, as used
by configuration-dependent claims.  The source hard-codes the four values;
`defaultCfg` is that hard-coded configuration. -/
structure ChunkCfg where
  target : Nat
  overlap : Nat
  minTokens : Nat
  maxTokens : Nat
deriving Repr, DecidableEq

def defaultCfg : ChunkCfg :=
  ⟨TARGET_TOKENS, OVERLAP_TOKENS, MIN_CHUNK_TOKENS, MAX_CHUNK_TOKENS⟩

/-! ## Python string primitives -/

/-- Python `str.split("\n")`: split at every newline, keeping empty pieces
(`"".split("\n") == [""]`). -/
def splitLinesAux : List Char → List Char → List String
  | [], acc => [String.mk acc.reverse]
  | c :: cs, acc =>
    if c = '\n' then String.mk acc.reverse :: splitLinesAux cs []
    else splitLinesAux cs (c :: acc)

def splitLines (s : String) : List String := splitLinesAux s.data []

/-- Python `str.strip()`: drop leading and trailing whitespace. -/
def pyStrip (s : String) : String :=
  String.mk (((s.data.dropWhile Char.isWhitespace).reverse.dropWhile
      Char.isWhitespace).reverse)

/-- Python `str.split()` with no argument: split on runs of whitespace and
drop empty pieces. -/
def pyWordsAux : List Char → List Char → List String
  | [], acc => if acc.isEmpty then [] else [String.mk acc.reverse]
  | c :: cs, acc =>
    if c.isWhitespace then
      if acc.isEmpty then pyWordsAux cs []
      else String.mk acc.reverse :: pyWordsAux cs []
    else pyWordsAux cs (c :: acc)

def pyWords (s : String) : List String := pyWordsAux s.data []

/-- Python `sep.join(xs)`. -/
def joinSep (sep : String) : List String → String
  | [] => ""
  | [x] => x
  | x :: xs => x ++ sep ++ joinSep sep xs

/-- Python list slice `xs[-n:]`.  For `n = 0` this is `xs[0:]`, the whole
list — the behaviour behind the implicit claim C10. -/
def pySliceLast {α : Type} (n : Nat) (xs : List α) : List α :=
  if n = 0 then xs else xs.drop (xs.length - n)

/-! ## `_split_into_paragraphs` (uploader.py lines 68-72)

`re.split(r"\n\s*\n", text)`: a match starts at a newline and extends
through the maximal whitespace run that follows, backtracking so that the
match ends at the last newline of that run (trailing spaces stay with the
next piece).  The `fuel` argument is only a structural-termination device;
every step consumes at least one character, so `fuel = length` suffices. -/

def paraSplitAux : Nat → List Char → List Char → List String
  | _, [], acc => [String.mk acc.reverse]
  | 0, cs, acc => [String.mk (acc.reverse ++ cs)]
  | fuel + 1, c :: cs, acc =>
    if c = '\n' then
      let wsRun := cs.takeWhile Char.isWhitespace
      let upToLastNl := wsRun.reverse.dropWhile (fun c2 => c2 ≠ '\n')
      if upToLastNl.length ≠ 0 then
        String.mk acc.reverse :: paraSplitAux fuel (cs.drop upToLastNl.length) []
      else paraSplitAux fuel cs ('\n' :: acc)
    else paraSplitAux fuel cs (c :: acc)

def paraSplit (s : String) : List String := paraSplitAux s.data.length s.data []

/-- `_split_into_paragraphs`: regex split, strip every piece, keep the
non-empty ones. -/
def splitIntoParagraphs (text : String) : List String :=
  ((paraSplit text).map pyStrip).filter (fun p => p ≠ "")

/-! ## Sentence fallback split (uploader.py line 125)

`re.split(r'[.!?]+\s+', para)`: a delimiter is a maximal run of `.`/`!`/`?`
immediately followed by a (maximal) whitespace run; the delimiter is
removed.  A punctuation run not followed by whitespace stays in the text. -/

def isSentPunct (c : Char) : Bool := c = '.' || c = '!' || c = '?'

def sentSplitAux : Nat → List Char → List Char → List String
  | _, [], acc => [String.mk acc.reverse]
  | 0, cs, acc => [String.mk (acc.reverse ++ cs)]
  | fuel + 1, c :: cs, acc =>
    if isSentPunct c then
      match cs.dropWhile isSentPunct with
      | c2 :: rest2 =>
        if c2.isWhitespace then
          String.mk acc.reverse ::
            sentSplitAux fuel ((c2 :: rest2).dropWhile Char.isWhitespace) []
        else sentSplitAux fuel (c2 :: rest2) ((cs.takeWhile isSentPunct).reverse ++ (c :: acc))
      | [] => String.mk (acc.reverse ++ (c :: cs)) :: []
    else sentSplitAux fuel cs (c :: acc)

def sentSplit (s : String) : List String := sentSplitAux s.data.length s.data []

/-! ## `_split_by_heading` (uploader.py lines 35-66) -/

/-- A markdown section, the dict `{"heading": …, "heading_level": …,
"content": …}` of `_split_by_heading`; the initial dict has no
`heading_level` key, modelled by `none`. -/
structure Section where
  heading : String
  heading_level : Option Nat
  content : String
deriving Repr, DecidableEq

/-- `re.match(r"^(##|###)\s+(.+)$", line)`, returning the heading level and
`group(2).strip()`.  The alternation can only pick `##` when the line does
not start with `###`; with the greedy `\s+` backtracking one step,
`group(2)` is the text after the maximal whitespace run, or a single
whitespace character (stripping to `""`) when only whitespace follows the
hashes. -/
def headingMatch (line : String) : Option (Nat × String) :=
  let cs := line.data
  let k := if cs.take 3 = ['#', '#', '#'] then 3
    else if cs.take 2 = ['#', '#'] then 2
    else 0
  if k = 0 then none
  else
    match cs.drop k with
    | [] => none
    | c :: rest =>
      if c.isWhitespace then
        match (c :: rest).dropWhile Char.isWhitespace with
        | [] => if (c :: rest).length ≥ 2 then some (k, "") else none
        | b :: bs => some (k, pyStrip (String.mk (b :: bs)))
      else none

/-- One line of the `_split_by_heading` loop: on a heading line, push the
current section if its stripped content is non-empty and start a new one
retaining the heading line; otherwise append the line to the current
content. -/
def headingStep : (List Section × Section) → String → (List Section × Section) :=
  fun st line =>
    match headingMatch line with
    | some (lvl, htext) =>
      ((if pyStrip st.2.content ≠ "" then st.1 ++ [st.2] else st.1),
       ⟨htext, some lvl, line ++ "\n"⟩)
    | none => (st.1, ⟨st.2.heading, st.2.heading_level, st.2.content ++ (line ++ "\n")⟩)

def splitByHeading (markdown : String) : List Section :=
  let res := (splitLines markdown).foldl headingStep ([], ⟨"", none, ""⟩)
  if pyStrip res.2.content ≠ "" then res.1 ++ [res.2] else res.1

/-! ## `_create_chunks` (uploader.py lines 74-197) -/

/-- A chunk record, the dict appended to `chunks`. -/
structure Chunk where
  text : String
  tokens : Nat
  heading : String
  chunk_index : Nat
  article_slug : String
  source_url : String
deriving Repr, DecidableEq

/-- The per-section mutable state of `_create_chunks`: the chunks emitted so
far for this section, `current_chunk`, `current_tokens`, `chunk_index`. -/
structure SecState where
  emitted : List Chunk
  current_chunk : List String
  current_tokens : Nat
  chunk_index : Nat
deriving Repr, DecidableEq

/-- The chunk record built at every flush site: the buffer joined with
blank lines, the running token total, the section heading and the current
index. -/
def mkChunkRec (heading slug url : String) (st : SecState) : Chunk :=
  ⟨joinSep "\n\n" st.current_chunk, st.current_tokens, heading,
   st.chunk_index, slug, url⟩

/-- Overlap trimming (uploader.py lines 142-147 and 172-176, identical in
both sites): if the overlap text's token count exceeds `OVERLAP`, keep the
last `int(OVERLAP * word_count / token_count)` whitespace words
(`words[-target_words:]`, rejoined with single spaces); otherwise keep the
text as is. -/
def trimOverlap (cfg : ChunkCfg) (tc : String → Nat) (overlap_text : String) : String :=
  if tc overlap_text > cfg.overlap then
    joinSep " "
      (pySliceLast (cfg.overlap * (pyWords overlap_text).length / tc overlap_text)
        (pyWords overlap_text))
  else overlap_text

/-- `current_chunk = [overlap_text, unit] if overlap_text else [unit]`
(uploader.py lines 149 and 178). -/
def newChunkUnits (cfg : ChunkCfg) (tc : String → Nat) (overlap_src unit : String) :
    List String :=
  if trimOverlap cfg tc overlap_src ≠ "" then [trimOverlap cfg tc overlap_src, unit]
  else [unit]

/-- Overlap source in the sentence loop (uploader.py line 141):
`"\n\n".join(current_chunk[-2:])` when the buffer has at least two units,
else its last unit, else `""`. -/
def overlapSourceSent (st : SecState) : String :=
  if st.current_chunk.length ≥ 2 then joinSep "\n\n" (pySliceLast 2 st.current_chunk)
  else st.current_chunk.getLastD ""

/-- One iteration of the sentence-unit loop (uploader.py lines 126-153).
The flush here performs no MIN check. -/
def sentStep (cfg : ChunkCfg) (tc : String → Nat) (heading slug url : String)
    (st : SecState) (sent : String) : SecState :=
  if st.current_tokens + tc sent > cfg.target ∧ st.current_chunk ≠ [] then
    ⟨st.emitted ++ [mkChunkRec heading slug url st],
     newChunkUnits cfg tc (overlapSourceSent st) sent,
     tc (joinSep "\n\n" (newChunkUnits cfg tc (overlapSourceSent st) sent)),
     st.chunk_index + 1⟩
  else ⟨st.emitted, st.current_chunk ++ [sent], st.current_tokens + tc sent,
        st.chunk_index⟩

/-- One iteration of the paragraph loop (uploader.py lines 104-183):
oversized-paragraph fallback (unconditional buffer flush, then the sentence
loop), the normal target-exceeded flush (with MIN check, overlap source
`current_chunk[-1:]`), or plain accumulation. -/
def paraStep (cfg : ChunkCfg) (tc : String → Nat) (heading slug url : String)
    (st : SecState) (para : String) : SecState :=
  if tc para > cfg.maxTokens then
    (sentSplit para).foldl (sentStep cfg tc heading slug url)
      (if st.current_chunk ≠ [] then
        ⟨st.emitted ++ [mkChunkRec heading slug url st], [], 0, st.chunk_index + 1⟩
       else st)
  else if st.current_tokens + tc para > cfg.target ∧ st.current_chunk ≠ [] then
    ⟨(if st.current_tokens ≥ cfg.minTokens then
        st.emitted ++ [mkChunkRec heading slug url st]
      else st.emitted),
     newChunkUnits cfg tc (joinSep "\n\n" (pySliceLast 1 st.current_chunk)) para,
     tc (joinSep "\n\n"
       (newChunkUnits cfg tc (joinSep "\n\n" (pySliceLast 1 st.current_chunk)) para)),
     (if st.current_tokens ≥ cfg.minTokens then st.chunk_index + 1 else st.chunk_index)⟩
  else ⟨st.emitted, st.current_chunk ++ [para], st.current_tokens + tc para,
        st.chunk_index⟩

/-- End-of-section flush (uploader.py lines 185-195): emit the remaining
buffer only when non-empty and at least MIN tokens. -/
def sectionFinalize (cfg : ChunkCfg) (heading slug url : String) (st : SecState) :
    List Chunk :=
  if st.current_chunk ≠ [] ∧ st.current_tokens ≥ cfg.minTokens then
    st.emitted ++ [mkChunkRec heading slug url st]
  else st.emitted

/-- All chunks produced for one section. -/
def chunksOfSection (cfg : ChunkCfg) (tc : String → Nat) (slug url : String)
    (sec : Section) : List Chunk :=
  sectionFinalize cfg sec.heading slug url
    ((splitIntoParagraphs sec.content).foldl
      (paraStep cfg tc sec.heading slug url) ⟨[], [], 0, 0⟩)

/-- Lines 87-91: split by headings, substituting a single heading-less
pseudo-section holding the raw markdown when no section was produced. -/
def sectionsFor (markdown : String) : List Section :=
  if (splitByHeading markdown).isEmpty then [⟨"", none, markdown⟩]
  else splitByHeading markdown

/-- `_create_chunks`, parameterised by the configuration record.  The
Python loop appends every section's chunks to one global list, which is the
concatenation of the per-section lists. -/
def createChunksCfg (cfg : ChunkCfg) (tc : String → Nat)
    (markdown article_slug source_url : String) : List Chunk :=
  ((sectionsFor markdown).map (chunksOfSection cfg tc article_slug source_url)).flatten

/-- `_create_chunks` with the hard-coded module constants of uploader.py. -/
def createChunks (tc : String → Nat) (markdown article_slug source_url : String) :
    List Chunk :=
  createChunksCfg defaultCfg tc markdown article_slug source_url

/-! ## Concrete token counters and inputs for witnesses and counterexamples

The spec's TokenCounter contract (§4.4) allows a whitespace word count
scaled by a fixed ratio as a deterministic stand-in for the production
encoder. -/

def tc100 : String → Nat := fun s => 100 * (pyWords s).length

def tc150 : String → Nat := fun s => 150 * (pyWords s).length

def tc50 : String → Nat := fun s => 50 * (pyWords s).length

def tc10 : String → Nat := fun s => 10 * (pyWords s).length

/-- The loop invariant behind `chunk_index`: it always equals the number of
chunks emitted so far in this section, and the emitted indices are
0, 1, 2, …. -/
def IdxInv (st : SecState) : Prop :=
  st.chunk_index = st.emitted.length ∧
  st.emitted.map Chunk.chunk_index = List.range st.emitted.length

/-- The content accumulated by `_split_by_heading` over a run of
non-heading lines: each line with a newline re-appended
(`current_section["content"] += line + "\n"`). -/
def joinNl : List String → String
  | [] => ""
  | l :: ls => (l ++ "\n") ++ joinNl ls

/-! ## Helper lemmas -/

theorem defaultCfg_target : defaultCfg.target = TARGET_TOKENS := rfl

theorem defaultCfg_overlap : defaultCfg.overlap = OVERLAP_TOKENS := rfl

theorem defaultCfg_minTokens : defaultCfg.minTokens = MIN_CHUNK_TOKENS := rfl

theorem defaultCfg_maxTokens : defaultCfg.maxTokens = MAX_CHUNK_TOKENS := rfl

theorem mkChunkRec_tokens (heading slug url : String) (st : SecState) :
    (mkChunkRec heading slug url st).tokens = st.current_tokens := rfl

theorem mkChunkRec_chunk_index (heading slug url : String) (st : SecState) :
    (mkChunkRec heading slug url st).chunk_index = st.chunk_index := rfl

theorem foldlPreserve {σ α : Type} (P : σ → Prop) (f : σ → α → σ)
    (h : ∀ s a, P s → P (f s a)) :
    ∀ (L : List α) (s : σ), P s → P (L.foldl f s) := by
  intro L
  induction L with
  | nil => exact fun s hs => hs
  | cons a L ih => exact fun s hs => ih (f s a) (h s a hs)

theorem foldlPreserveMem {σ α : Type} (P : σ → Prop) (f : σ → α → σ) :
    ∀ (L : List α) (s : σ), (∀ a ∈ L, ∀ s2, P s2 → P (f s2 a)) → P s → P (L.foldl f s) := by
  intro L
  induction L with
  | nil => exact fun s _ hs => hs
  | cons a L ih =>
    intro s hstep hs
    exact ih (f s a)
      (fun b hb s2 hP => hstep b (List.mem_cons_of_mem a hb) s2 hP)
      (hstep a (List.mem_cons_self a L) s hs)

/-! ## C3 — configuration validation -/

/-- C3 (amended): the configuration is hard-coded as the module constants
TARGET=600, OVERLAP=100, MIN=200, MAX=800, which satisfy
MIN ≤ TARGET ≤ MAX and OVERLAP < TARGET; the code contains no ConfigError
and performs no validation — `createChunks` is the configured chunker at
exactly this constant configuration, a total function for any
configuration. -/
theorem C3_config_hardcoded_valid :
    MIN_CHUNK_TOKENS ≤ TARGET_TOKENS ∧ TARGET_TOKENS ≤ MAX_CHUNK_TOKENS ∧
    OVERLAP_TOKENS < TARGET_TOKENS ∧
    defaultCfg = ⟨TARGET_TOKENS, OVERLAP_TOKENS, MIN_CHUNK_TOKENS, MAX_CHUNK_TOKENS⟩ ∧
    ∀ (tc : String → Nat) (md slug url : String),
      createChunks tc md slug url = createChunksCfg defaultCfg tc md slug url :=
  ⟨by decide, by decide, by decide, rfl, fun _ _ _ _ => rfl⟩

/-- C3 (counterexample): under the invalid configuration
⟨TARGET=600, OVERLAP=100, MIN=700, MAX=800⟩ (MIN > TARGET), the chunker
does not fail fast: it processes the section and emits a chunk, so it is
false that no chunk is ever emitted under an invalid configuration. -/
theorem C3_counterexample :
    (⟨600, 100, 700, 800⟩ : ChunkCfg).target < (⟨600, 100, 700, 800⟩ : ChunkCfg).minTokens ∧
    (createChunksCfg ⟨600, 100, 700, 800⟩ tc100 "c1 c2 c3 c4 c5 c6 c7 c8" "art" "http://u").map
      (fun c => (c.text, c.tokens)) = [("c1 c2 c3 c4 c5 c6 c7 c8", 800)] :=
  ⟨by decide, by decide⟩

/-! ## C4 — oversized sentence units -/

/-- C4 (amended): a sentence unit is never split further — after every
iteration of the sentence-unit loop the incoming unit is, whole, the last
element of the accumulation buffer — but an oversized sentence unit is not
emitted as a chunk on its own: when its arrival triggers a flush it is
seeded into the new buffer together with the overlap carry-over text
whenever that text is non-empty. -/
theorem C4_sentence_unit_kept_whole (cfg : ChunkCfg) (tc : String → Nat)
    (heading slug url : String) (st : SecState) (sent : String) :
    ((sentStep cfg tc heading slug url st sent).current_chunk).getLast? = some sent := by
  unfold sentStep
  by_cases h : st.current_tokens + tc sent > cfg.target ∧ st.current_chunk ≠ []
  · rw [if_pos h]
    show (newChunkUnits cfg tc (overlapSourceSent st) sent).getLast? = some sent
    unfold newChunkUnits
    by_cases h2 : trimOverlap cfg tc (overlapSourceSent st) ≠ ""
    · rw [if_pos h2]; rfl
    · rw [if_neg h2]; rfl
  · rw [if_neg h]
    exact List.getLast?_concat _

/-- C4 (counterexample): in the markdown "a b c. d1 … d9" (one oversized
paragraph), the sentence unit "d1 … d9" has 900 > MAX tokens under tc100,
yet no emitted chunk equals that unit on its own: it is packed into the
chunk "c\n\nd1 … d9" together with the overlap carry-over "c". -/
theorem C4_counterexample :
    MAX_CHUNK_TOKENS < tc100 "d1 d2 d3 d4 d5 d6 d7 d8 d9" ∧
    MAX_CHUNK_TOKENS < tc100 "a b c. d1 d2 d3 d4 d5 d6 d7 d8 d9" ∧
    sentSplit "a b c. d1 d2 d3 d4 d5 d6 d7 d8 d9"
      = ["a b c", "d1 d2 d3 d4 d5 d6 d7 d8 d9"] ∧
    (createChunks tc100 "a b c. d1 d2 d3 d4 d5 d6 d7 d8 d9" "art" "http://u").map Chunk.text
      = ["a b c", "c\n\nd1 d2 d3 d4 d5 d6 d7 d8 d9"] ∧
    ((createChunks tc100 "a b c. d1 d2 d3 d4 d5 d6 d7 d8 d9" "art" "http://u").map
        Chunk.text).contains "d1 d2 d3 d4 d5 d6 d7 d8 d9" = false := by
  refine ⟨by decide, by decide, by decide, by decide, by decide⟩

/-! ## C5 / C10 — overlap trimming -/

/-- C5 (amended): when the overlap source text's token count exceeds
OVERLAP_TOKENS and the proportionally scaled target word count
floor(OVERLAP_TOKENS * wordCount / tokenCount) is at least 1, the kept
overlap text is exactly the last target-word-count whitespace-separated
words of the source, rejoined with single spaces. -/
theorem C5_overlap_trim_formula (tc : String → Nat) (src : String)
    (h1 : OVERLAP_TOKENS < tc src)
    (h2 : 1 ≤ OVERLAP_TOKENS * (pyWords src).length / tc src) :
    trimOverlap defaultCfg tc src =
      joinSep " " ((pyWords src).drop
        ((pyWords src).length - OVERLAP_TOKENS * (pyWords src).length / tc src)) := by
  unfold trimOverlap
  rw [defaultCfg_overlap, if_pos h1]
  unfold pySliceLast
  rw [if_neg (Nat.one_le_iff_ne_zero.mp h2)]

theorem C5_overlap_trim_formula_witness :
    OVERLAP_TOKENS < tc50 "a b c d" ∧
    1 ≤ OVERLAP_TOKENS * (pyWords "a b c d").length / tc50 "a b c d" ∧
    trimOverlap defaultCfg tc50 "a b c d" =
      joinSep " " ((pyWords "a b c d").drop
        ((pyWords "a b c d").length
          - OVERLAP_TOKENS * (pyWords "a b c d").length / tc50 "a b c d")) :=
  ⟨by decide, by decide, C5_overlap_trim_formula tc50 "a b c d" (by decide) (by decide)⟩

/-- C5 (counterexample): for the overlap source "w" with tc150 ("w" counts
150 > OVERLAP_TOKENS tokens), the proportional target word count is 0, and
the kept overlap is the whole source "w", not the last 0 words (the empty
string); the run of `_create_chunks` on "w\n\ns1 s2 s3 s4" reaches exactly
this trim (the undersized buffer ["w"] is discarded by the MIN-checked
flush but still seeds the overlap), so the emitted chunk still starts with
"w" where the claimed formula would have dropped it. -/
theorem C5_counterexample :
    OVERLAP_TOKENS < tc150 "w" ∧
    OVERLAP_TOKENS * (pyWords "w").length / tc150 "w" = 0 ∧
    trimOverlap defaultCfg tc150 "w" = "w" ∧
    joinSep " " ((pyWords "w").drop ((pyWords "w").length - 0)) = "" ∧
    (createChunks tc150 "w\n\ns1 s2 s3 s4" "art" "http://u").map Chunk.text
      = ["w\n\ns1 s2 s3 s4"] :=
  ⟨by decide, by decide, by decide, by decide, by decide⟩

/-- C10: in the overlap-trim step, when the overlap source's token count
exceeds OVERLAP_TOKENS but the computed target word count
floor(OVERLAP_TOKENS * wordCount / tokenCount) is 0, the Python slice
words[-0:] is the full word list, so the entire source (word for word) is
kept as the overlap seed instead of being trimmed toward OVERLAP_TOKENS. -/
theorem C10_zero_target_keeps_all (tc : String → Nat) (src : String)
    (h1 : OVERLAP_TOKENS < tc src)
    (h2 : OVERLAP_TOKENS * (pyWords src).length / tc src = 0) :
    trimOverlap defaultCfg tc src = joinSep " " (pyWords src) := by
  unfold trimOverlap
  rw [defaultCfg_overlap, if_pos h1]
  unfold pySliceLast
  rw [if_pos h2]

theorem C10_zero_target_keeps_all_witness :
    OVERLAP_TOKENS < tc150 "w" ∧
    OVERLAP_TOKENS * (pyWords "w").length / tc150 "w" = 0 ∧
    trimOverlap defaultCfg tc150 "w" = joinSep " " (pyWords "w") :=
  ⟨by decide, by decide, C10_zero_target_keeps_all tc150 "w" (by decide) (by decide)⟩

/-! ## C6 — determinism -/

/-- C6: `_create_chunks` is embedded as a pure total function of
(tokenCounter, markdown, articleSlug, sourceUrl) — the source performs no
I/O, reads no clock and uses no randomness — so two invocations on the same
input agree in length and, at every position, in every field of the chunk
record. -/
theorem C6_determinism (tc : String → Nat) (md slug url : String) (i : Nat) :
    (createChunks tc md slug url).length = (createChunks tc md slug url).length ∧
    ((createChunks tc md slug url).get? i).map
        (fun c => (c.text, c.tokens, c.heading, c.chunk_index, c.article_slug, c.source_url))
      = ((createChunks tc md slug url).get? i).map
        (fun c => (c.text, c.tokens, c.heading, c.chunk_index, c.article_slug, c.source_url)) :=
  ⟨rfl, rfl⟩

/-! ## C7 — chunk_index ordering -/

theorem IdxInv_emit (heading slug url : String) (st : SecState) (h : IdxInv st)
    (ck : List String) (t : Nat) :
    IdxInv ⟨st.emitted ++ [mkChunkRec heading slug url st], ck, t, st.chunk_index + 1⟩ := by
  obtain ⟨h1, h2⟩ := h
  constructor
  · simp [h1]
  · simp only [List.map_append, List.length_append, List.map_cons, List.map_nil,
      mkChunkRec_chunk_index, List.length_cons, List.length_nil, h1, h2]
    rw [← List.range_succ]

theorem sentStep_IdxInv (cfg : ChunkCfg) (tc : String → Nat)
    (heading slug url : String) (st : SecState) (sent : String) (h : IdxInv st) :
    IdxInv (sentStep cfg tc heading slug url st sent) := by
  unfold sentStep
  by_cases hc : st.current_tokens + tc sent > cfg.target ∧ st.current_chunk ≠ []
  · rw [if_pos hc]; exact IdxInv_emit heading slug url st h _ _
  · rw [if_neg hc]; exact h

theorem paraStep_IdxInv (cfg : ChunkCfg) (tc : String → Nat)
    (heading slug url : String) (st : SecState) (para : String) (h : IdxInv st) :
    IdxInv (paraStep cfg tc heading slug url st para) := by
  unfold paraStep
  by_cases h1 : tc para > cfg.maxTokens
  · rw [if_pos h1]
    apply foldlPreserve IdxInv _
      (fun s a hs => sentStep_IdxInv cfg tc heading slug url s a hs)
    by_cases h2 : st.current_chunk ≠ []
    · rw [if_pos h2]; exact IdxInv_emit heading slug url st h _ _
    · rw [if_neg h2]; exact h
  · rw [if_neg h1]
    by_cases h2 : st.current_tokens + tc para > cfg.target ∧ st.current_chunk ≠ []
    · rw [if_pos h2]
      by_cases h3 : st.current_tokens ≥ cfg.minTokens
      · rw [if_pos h3, if_pos h3]; exact IdxInv_emit heading slug url st h _ _
      · rw [if_neg h3, if_neg h3]; exact h
    · rw [if_neg h2]; exact h

theorem sectionFinalize_range (cfg : ChunkCfg) (heading slug url : String)
    (st : SecState) (h : IdxInv st) :
    (sectionFinalize cfg heading slug url st).map Chunk.chunk_index
      = List.range (sectionFinalize cfg heading slug url st).length := by
  unfold sectionFinalize
  by_cases hc : st.current_chunk ≠ [] ∧ st.current_tokens ≥ cfg.minTokens
  · rw [if_pos hc]
    simp only [List.map_append, List.length_append, List.map_cons, List.map_nil,
      mkChunkRec_chunk_index, List.length_cons, List.length_nil, h.1, h.2]
    rw [← List.range_succ]
  · rw [if_neg hc]; exact h.2

theorem chunksOfSection_range (cfg : ChunkCfg) (tc : String → Nat)
    (slug url : String) (sec : Section) :
    (chunksOfSection cfg tc slug url sec).map Chunk.chunk_index
      = List.range (chunksOfSection cfg tc slug url sec).length := by
  unfold chunksOfSection
  apply sectionFinalize_range
  exact foldlPreserve IdxInv _
    (fun s a hs => paraStep_IdxInv cfg tc sec.heading slug url s a hs)
    (splitIntoParagraphs sec.content) ⟨[], [], 0, 0⟩ ⟨rfl, rfl⟩

/-- C7: `_create_chunks` is the concatenation of the per-section chunk
lists, and within every section the emitted `chunk_index` values are
exactly 0, 1, 2, … with no gaps — zero-based and restarting at 0 for every
section. -/
theorem C7_chunk_index_per_section (tc : String → Nat) (md slug url : String) :
    createChunks tc md slug url
      = ((sectionsFor md).map (chunksOfSection defaultCfg tc slug url)).flatten ∧
    ∀ sec : Section,
      (chunksOfSection defaultCfg tc slug url sec).map Chunk.chunk_index
        = List.range (chunksOfSection defaultCfg tc slug url sec).length :=
  ⟨rfl, fun sec => chunksOfSection_range defaultCfg tc slug url sec⟩

/-! ## C1 — token bounds -/

theorem sectionFinalize_min (cfg : ChunkCfg) (heading slug url : String)
    (st : SecState) (hst : ∀ c ∈ st.emitted, cfg.minTokens ≤ c.tokens) :
    ∀ c ∈ sectionFinalize cfg heading slug url st, cfg.minTokens ≤ c.tokens := by
  unfold sectionFinalize
  by_cases hc : st.current_chunk ≠ [] ∧ st.current_tokens ≥ cfg.minTokens
  · rw [if_pos hc]
    intro c hmem
    rcases List.mem_append.mp hmem with hm | hm
    · exact hst c hm
    · rw [List.mem_singleton.mp hm]; exact hc.2
  · rw [if_neg hc]; exact hst

theorem paraStep_min (cfg : ChunkCfg) (tc : String → Nat)
    (heading slug url : String) (st : SecState) (para : String)
    (hpara : ¬ tc para > cfg.maxTokens)
    (hst : ∀ c ∈ st.emitted, cfg.minTokens ≤ c.tokens) :
    ∀ c ∈ (paraStep cfg tc heading slug url st para).emitted,
      cfg.minTokens ≤ c.tokens := by
  unfold paraStep
  rw [if_neg hpara]
  by_cases h2 : st.current_tokens + tc para > cfg.target ∧ st.current_chunk ≠ []
  · rw [if_pos h2]
    by_cases h3 : st.current_tokens ≥ cfg.minTokens
    · rw [if_pos h3]
      intro c hmem
      rcases List.mem_append.mp hmem with hm | hm
      · exact hst c hm
      · rw [List.mem_singleton.mp hm]; exact h3
    · rw [if_neg h3]; exact hst
  · rw [if_neg h2]; exact hst

theorem chunksOfSection_min (cfg : ChunkCfg) (tc : String → Nat)
    (slug url : String) (sec : Section)
    (h : ∀ p ∈ splitIntoParagraphs sec.content, tc p ≤ cfg.maxTokens) :
    ∀ c ∈ chunksOfSection cfg tc slug url sec, cfg.minTokens ≤ c.tokens := by
  unfold chunksOfSection
  apply sectionFinalize_min
  exact foldlPreserveMem (fun st => ∀ c ∈ st.emitted, cfg.minTokens ≤ c.tokens)
    (paraStep cfg tc sec.heading slug url)
    (splitIntoParagraphs sec.content) ⟨[], [], 0, 0⟩
    (fun p hp s2 hs2 =>
      paraStep_min cfg tc sec.heading slug url s2 p (Nat.not_lt.mpr (h p hp)) hs2)
    (fun c hc => absurd hc (List.not_mem_nil c))

/-- C1 (amended): when no paragraph of any section exceeds MAX_CHUNK_TOKENS
(so the sentence fallback never runs), every emitted chunk has
tokens ≥ MIN_CHUNK_TOKENS; the upper bound tokens ≤ MAX_CHUNK_TOKENS does
not hold in general — an overlap-seeded buffer can push a chunk past MAX
with no oversized sentence involved (see the counterexample) — and flushes
on the fallback path can emit chunks below MIN (claim C2). -/
theorem C1_min_bound_without_fallback (tc : String → Nat) (md slug url : String)
    (h : ∀ sec ∈ sectionsFor md, ∀ p ∈ splitIntoParagraphs sec.content,
      tc p ≤ MAX_CHUNK_TOKENS) :
    ∀ c ∈ createChunks tc md slug url, MIN_CHUNK_TOKENS ≤ c.tokens := by
  intro c hc
  have hc2 : c ∈ ((sectionsFor md).map (chunksOfSection defaultCfg tc slug url)).flatten := hc
  rcases List.mem_flatten.mp hc2 with ⟨l, hl, hcl⟩
  rcases List.mem_map.mp hl with ⟨sec, hsec, rfl⟩
  exact chunksOfSection_min defaultCfg tc slug url sec (h sec hsec) c hcl

theorem C1_min_bound_without_fallback_witness :
    (∀ sec ∈ sectionsFor "x1 x2 x3 x4 x5 x6",
      ∀ p ∈ splitIntoParagraphs sec.content, tc100 p ≤ MAX_CHUNK_TOKENS) ∧
    (∀ c ∈ createChunks tc100 "x1 x2 x3 x4 x5 x6" "art" "http://u",
      MIN_CHUNK_TOKENS ≤ c.tokens) :=
  ⟨by decide,
   C1_min_bound_without_fallback tc100 "x1 x2 x3 x4 x5 x6" "art" "http://u" (by decide)⟩

/-- C1 (counterexample): in a two-paragraph section with paragraph token
counts [600, 800] — no paragraph exceeds MAX, so no sentence unit exists
and the documented oversized-sentence exception cannot apply to any chunk —
the second emitted chunk is the overlap word "a6" joined with the second
paragraph and carries tokens = 900 > MAX_CHUNK_TOKENS = 800. -/
theorem C1_counterexample :
    ((sectionsFor "a1 a2 a3 a4 a5 a6\n\nb1 b2 b3 b4 b5 b6 b7 b8").map
      (fun sec => (splitIntoParagraphs sec.content).map tc100)) = [[600, 800]] ∧
    (createChunks tc100 "a1 a2 a3 a4 a5 a6\n\nb1 b2 b3 b4 b5 b6 b7 b8" "art"
      "http://u").map Chunk.tokens = [600, 900] ∧
    MAX_CHUNK_TOKENS < 900 :=
  ⟨by decide, by decide, by decide⟩

/-! ## C2 — the MIN flush rule -/

/-- C2 (amended): only the normal paragraph-accumulation flush and the
end-of-section flush apply the MIN rule — with a running total below
MIN_CHUNK_TOKENS they emit nothing and the buffered content is discarded
(though it still seeds the overlap); the flush before the oversized-
paragraph fallback and the flushes inside the sentence-unit loop emit
unconditionally, with no MIN check (see the counterexample). -/
theorem C2_min_checked_flushes (cfg : ChunkCfg) (tc : String → Nat)
    (heading slug url : String) (st : SecState) (para : String)
    (h1 : tc para ≤ cfg.maxTokens)
    (h2 : cfg.target < st.current_tokens + tc para)
    (h3 : st.current_chunk ≠ [])
    (h4 : st.current_tokens < cfg.minTokens) :
    (paraStep cfg tc heading slug url st para).emitted = st.emitted ∧
    sectionFinalize cfg heading slug url st = st.emitted := by
  constructor
  · unfold paraStep
    rw [if_neg (Nat.not_lt.mpr h1), if_pos ⟨h2, h3⟩, if_neg (Nat.not_le.mpr h4)]
  · unfold sectionFinalize
    rw [if_neg (fun hc => absurd hc.2 (Nat.not_le.mpr h4))]

theorem C2_min_checked_flushes_witness :
    tc100 "p1 p2 p3 p4 p5 p6" ≤ defaultCfg.maxTokens ∧
    defaultCfg.target < 100 + tc100 "p1 p2 p3 p4 p5 p6" ∧
    (["a"] : List String) ≠ [] ∧
    (100 : Nat) < defaultCfg.minTokens ∧
    (paraStep defaultCfg tc100 "h" "art" "http://u" ⟨[], ["a"], 100, 0⟩
      "p1 p2 p3 p4 p5 p6").emitted = [] ∧
    sectionFinalize defaultCfg "h" "art" "http://u" ⟨[], ["a"], 100, 0⟩ = [] :=
  ⟨by decide, by decide, by decide, by decide,
   (C2_min_checked_flushes defaultCfg tc100 "h" "art" "http://u" ⟨[], ["a"], 100, 0⟩
     "p1 p2 p3 p4 p5 p6" (by decide) (by decide) (by decide) (by decide)).1,
   (C2_min_checked_flushes defaultCfg tc100 "h" "art" "http://u" ⟨[], ["a"], 100, 0⟩
     "p1 p2 p3 p4 p5 p6" (by decide) (by decide) (by decide) (by decide)).2⟩

/-- C2 (counterexample): on "a. b c d e f g h i" (one oversized paragraph
under tc100), the flush inside the sentence-unit loop emits a chunk whose
running token total is 100 < MIN_CHUNK_TOKENS = 200, so it is false that
every flush emits only when the total is ≥ MIN. -/
theorem C2_counterexample :
    (createChunks tc100 "a. b c d e f g h i" "art" "http://u").map Chunk.tokens
      = [100, 900] ∧
    100 < MIN_CHUNK_TOKENS :=
  ⟨by decide, by decide⟩

/-! ## C8 — undersized sections -/

theorem foldl_paraStep_small (cfg : ChunkCfg) (tc : String → Nat)
    (heading slug url : String)
    (hmt : cfg.minTokens ≤ cfg.target) (hmm : cfg.minTokens ≤ cfg.maxTokens) :
    ∀ (L : List String) (st : SecState), st.emitted = [] →
      st.current_tokens + (L.map tc).sum < cfg.minTokens →
      (L.foldl (paraStep cfg tc heading slug url) st).emitted = [] ∧
      (L.foldl (paraStep cfg tc heading slug url) st).current_tokens < cfg.minTokens := by
  intro L
  induction L with
  | nil =>
    intro st h1 h2
    exact ⟨h1, by simpa using h2⟩
  | cons p L ih =>
    intro st h1 h2
    have hsum : st.current_tokens + (tc p + (L.map tc).sum) < cfg.minTokens := by
      simpa using h2
    have hA : ¬ tc p > cfg.maxTokens := by omega
    have hB : ¬ (st.current_tokens + tc p > cfg.target ∧ st.current_chunk ≠ []) :=
      fun hc => absurd hc.1 (by omega)
    have hstep : paraStep cfg tc heading slug url st p
        = ⟨st.emitted, st.current_chunk ++ [p], st.current_tokens + tc p,
           st.chunk_index⟩ := by
      unfold paraStep
      rw [if_neg hA, if_neg hB]
    rw [List.foldl_cons, hstep]
    refine ih _ h1 ?_
    show st.current_tokens + tc p + (L.map tc).sum < cfg.minTokens
    omega

/-- C8: a section whose total token count — the token counter applied to
the section's content — is below MIN_CHUNK_TOKENS yields zero chunks,
under the tokenizer abstraction that the paragraphs' token counts sum to
at most the whole content's token count (the paragraphs are disjoint
sub-spans of the content, so this models the real sub-word encoder). -/
theorem C8_undersized_section_no_chunks (tc : String → Nat)
    (slug url : String) (sec : Section)
    (hsub : ((splitIntoParagraphs sec.content).map tc).sum ≤ tc sec.content)
    (hsmall : tc sec.content < MIN_CHUNK_TOKENS) :
    chunksOfSection defaultCfg tc slug url sec = [] := by
  unfold chunksOfSection
  have h := foldl_paraStep_small defaultCfg tc sec.heading slug url
    (by decide) (by decide) (splitIntoParagraphs sec.content) ⟨[], [], 0, 0⟩ rfl
    (by show 0 + ((splitIntoParagraphs sec.content).map tc).sum < defaultCfg.minTokens
        rw [defaultCfg_minTokens]
        omega)
  unfold sectionFinalize
  rw [if_neg (fun hc => absurd hc.2 (Nat.not_le.mpr h.2))]
  exact h.1

theorem C8_undersized_section_no_chunks_witness :
    ((splitIntoParagraphs ("a b c" : String)).map tc10).sum ≤ tc10 "a b c" ∧
    tc10 "a b c" < MIN_CHUNK_TOKENS ∧
    chunksOfSection defaultCfg tc10 "art" "http://u" ⟨"", none, "a b c"⟩ = [] :=
  ⟨by decide, by decide,
   C8_undersized_section_no_chunks tc10 "art" "http://u" ⟨"", none, "a b c"⟩
     (by decide) (by decide)⟩

/-! ## C9 — heading segmentation fallback -/

theorem headingStep_none (secs : List Section) (cur : Section) (line : String)
    (h : headingMatch line = none) :
    headingStep (secs, cur) line
      = (secs, ⟨cur.heading, cur.heading_level, cur.content ++ (line ++ "\n")⟩) := by
  unfold headingStep
  rw [h]

theorem foldl_headingStep_none :
    ∀ (lines : List String) (secs : List Section) (cur : Section),
      (∀ l ∈ lines, headingMatch l = none) →
      lines.foldl headingStep (secs, cur)
        = (secs, ⟨cur.heading, cur.heading_level, cur.content ++ joinNl lines⟩) := by
  intro lines
  induction lines with
  | nil =>
    intro secs cur _
    simp [joinNl, String.append_empty]
  | cons l ls ih =>
    intro secs cur h
    rw [List.foldl_cons, headingStep_none secs cur l (h l (List.mem_cons_self l ls)),
      ih secs _ (fun x hx => h x (List.mem_cons_of_mem l hx))]
    show (secs, (⟨cur.heading, cur.heading_level,
      (cur.content ++ (l ++ "\n")) ++ joinNl ls⟩ : Section))
      = (secs, ⟨cur.heading, cur.heading_level, cur.content ++ joinNl (l :: ls)⟩)
    rw [String.append_assoc]
    rfl

/-- C9 (amended): for a document none of whose lines is an H2/H3 heading
marker, heading segmentation yields at most one section: exactly one
section with empty heading whose content is the document's lines each
re-joined with a trailing newline (the document plus a final newline) when
the document has any non-whitespace character, and the empty section
sequence when the document is empty or whitespace-only.  In the empty
case `_create_chunks` substitutes one heading-less pseudo-section holding
the raw markdown. -/
theorem C9_no_heading_fallback (md : String)
    (h : ∀ l ∈ splitLines md, headingMatch l = none) :
    splitByHeading md
      = (if pyStrip (joinNl (splitLines md)) ≠ ""
         then [⟨"", none, joinNl (splitLines md)⟩] else []) ∧
    sectionsFor md
      = (if pyStrip (joinNl (splitLines md)) ≠ ""
         then [⟨"", none, joinNl (splitLines md)⟩] else [⟨"", none, md⟩]) := by
  have hs : splitByHeading md
      = (if pyStrip (joinNl (splitLines md)) ≠ ""
         then [⟨"", none, joinNl (splitLines md)⟩] else []) := by
    unfold splitByHeading
    rw [foldl_headingStep_none (splitLines md) [] ⟨"", none, ""⟩ h]
    show (if pyStrip (("" : String) ++ joinNl (splitLines md)) ≠ ""
      then ([] : List Section) ++ [⟨"", none, ("" : String) ++ joinNl (splitLines md)⟩]
      else ([] : List Section))
      = (if pyStrip (joinNl (splitLines md)) ≠ ""
         then [(⟨"", none, joinNl (splitLines md)⟩ : Section)] else [])
    rw [String.empty_append]
    by_cases hcond : pyStrip (joinNl (splitLines md)) ≠ ""
    · rw [if_pos hcond, if_pos hcond, List.nil_append]
    · rw [if_neg hcond, if_neg hcond]
  refine ⟨hs, ?_⟩
  unfold sectionsFor
  rw [hs]
  by_cases hcond : pyStrip (joinNl (splitLines md)) ≠ ""
  · rw [if_pos hcond, if_pos hcond]
    rfl
  · rw [if_neg hcond, if_neg hcond]
    rfl

theorem C9_no_heading_fallback_witness :
    (∀ l ∈ splitLines "abc", headingMatch l = none) ∧
    (splitByHeading "abc"
        = (if pyStrip (joinNl (splitLines "abc")) ≠ ""
           then [⟨"", none, joinNl (splitLines "abc")⟩] else []) ∧
     sectionsFor "abc"
        = (if pyStrip (joinNl (splitLines "abc")) ≠ ""
           then [⟨"", none, joinNl (splitLines "abc")⟩] else [⟨"", none, "abc"⟩])) :=
  ⟨by decide, C9_no_heading_fallback "abc" (by decide)⟩

/-- C9 (counterexample): the whitespace-only document " " has zero heading
markers yet heading segmentation yields zero sections, not exactly one;
and for the document "abc" the single section's content is "abc\n" — the
line re-joined with a trailing newline — not the document itself. -/
theorem C9_counterexample :
    headingMatch " " = none ∧ splitByHeading " " = [] ∧
    headingMatch "abc" = none ∧
    splitByHeading "abc" = [⟨"", none, "abc\n"⟩] ∧
    ("abc\n" : String) ≠ "abc" :=
  ⟨by decide, by decide, by decide, by decide, by decide⟩
